import Mathlib

/-!
Verification development for the taxables personal-finance backend.

The definitions below are a shallow embedding of `core/views.py`,
`core/serializers.py` and `core/models.py`:

* machine strings are Lean `String`s, but every operation performed on them
  (Python `str.lower`, `str.strip`, substring tests, Django `__iexact`,
  `__icontains`, `__in`, and Python string comparison) is re-implemented
  structurally over the underlying character list so that concrete instances
  evaluate inside the kernel;
* `DecimalField` amounts are modelled as integers (`Int`), which is faithful
  for every property considered here (only sums, differences and order
  comparisons of amounts occur);
* `DateField` values are modelled as ISO `YYYY-MM-DD` strings; comparison of
  ISO strings agrees with comparison of the dates they denote;
* nullable database columns (`Income.user`, `Expense.user`, `Budget.user`,
  and the legacy possibility `Expense.type IS NULL` that the feed code
  checks for) are modelled with `Option`;
* a Django queryset is a Lean list filtered by the corresponding predicate;
  the model `Meta.ordering = ["-date", "-id"]` and explicit
  `order_by("-date", "-id")` calls are modelled by a stable descending
  sort on the pair (date, numeric id).
-/

namespace Taxables

/-! ### Character / string primitives (Python `str` and Django lookups) -/

/-- ASCII lower-casing of one character, as Python `str.lower` acts on the
ASCII range (all labels and slugs in this code base are ASCII). -/
def char_lower (c : Char) : Char :=
  if 65 ≤ c.toNat ∧ c.toNat ≤ 90 then Char.ofNat (c.toNat + 32) else c

/-- Python `s.lower()` restricted to ASCII data. -/
def lower (s : String) : String := ⟨s.data.map char_lower⟩

/-- Default whitespace recognised by Python `str.strip`. -/
def is_space (c : Char) : Bool :=
  c = ' ' || c = '\t' || c = '\n' || c = '\r'

/-- Python `s.strip()`: drop whitespace from both ends. -/
def strip (s : String) : String :=
  ⟨((s.data.dropWhile is_space).reverse.dropWhile is_space).reverse⟩

/-- Does `hay` start with `needle`? (helper for substring search). -/
def begins_with : List Char → List Char → Bool
  | [], _ => true
  | _ :: _, [] => false
  | a :: as, b :: bs => a = b && begins_with as bs

/-- Does `hay` contain `needle` as a contiguous substring?
Mirrors Python `needle in hay`. -/
def has_sub (needle : List Char) : List Char → Bool
  | [] => needle.isEmpty
  | c :: t => begins_with needle (c :: t) || has_sub needle t

/-- Django `field__icontains=value`: case-insensitive substring test. -/
def icontains (hay needle : String) : Bool :=
  has_sub (lower needle).data (lower hay).data

/-- Django `field__iexact=value`: case-insensitive equality. -/
def iexact (a b : String) : Bool := lower a == lower b

/-- Strict lexicographic comparison of character lists by code point,
as Python compares strings. -/
def chars_lt : List Char → List Char → Bool
  | [], [] => false
  | [], _ :: _ => true
  | _ :: _, [] => false
  | a :: as, b :: bs =>
      decide (a.toNat < b.toNat) || (decide (a.toNat = b.toNat) && chars_lt as bs)

/-- Non-strict lexicographic comparison of character lists by code point. -/
def chars_le : List Char → List Char → Bool
  | [], _ => true
  | _ :: _, [] => false
  | a :: as, b :: bs =>
      decide (a.toNat < b.toNat) || (decide (a.toNat = b.toNat) && chars_le as bs)

/-- Python `a < b` on strings. -/
def str_lt (a b : String) : Bool := chars_lt a.data b.data

/-- Python `a <= b` on strings. -/
def str_le (a b : String) : Bool := chars_le a.data b.data

/-! ### Data model (`core/models.py`) -/

/-- A row of the `Income` table. -/
structure IncomeRow where
  id : Nat
  user : Option Nat
  amount : Int
  date : String
  source : String
  remark : String
deriving DecidableEq, Repr

/-- A row of the `Expense` table.  `type` is `Option` because
`transaction_history` guards against `type__isnull`. -/
structure ExpenseRow where
  id : Nat
  user : Option Nat
  date : String
  amount : Int
  remark : String
  type : Option String
  category : String
deriving DecidableEq, Repr

/-- A row of the `Budget` table. -/
structure BudgetRow where
  id : Nat
  user : Option Nat
  category : String
  subcategory : String
  amount : Int
  date : String
deriving DecidableEq, Repr

/-- The relational store visible to the endpoints. -/
structure Database where
  incomes : List IncomeRow
  expenses : List ExpenseRow
  budgets : List BudgetRow
deriving DecidableEq, Repr

/-- Insert `a` into `l` in front of the first element it is `le`-related to.
Helper of `stable_sort`. -/
def ins_le {α : Type} (le : α → α → Bool) (a : α) : List α → List α
  | [] => [a]
  | b :: t => if le a b then a :: b :: t else b :: ins_le le a t

/-- Stable sort with respect to the boolean preorder `le` (insertion sort).
For a transitive, total `le` this computes the same list as every stable
sorting algorithm, in particular Python's `list.sort` and the sort a SQL
engine applies for a deterministic `ORDER BY`. -/
def stable_sort {α : Type} (le : α → α → Bool) : List α → List α
  | [] => []
  | a :: t => ins_le le a (stable_sort le t)

/-- Django `order_by("-date", "-id")` (also the `Meta.ordering` of all three
models): stable descending sort by date then numeric id. -/
def order_by_date_id_desc {α : Type} (dateOf : α → String) (idOf : α → Nat)
    (l : List α) : List α :=
  stable_sort (fun a b =>
    str_lt (dateOf b) (dateOf a)
      || (dateOf b == dateOf a && decide (idOf b ≤ idOf a))) l

/-! ### Pagination helper (`core/views.py`, `_parse_pagination`) -/

/-- `_parse_pagination`.  The argument `some n` models a query parameter on
which Python `int()` succeeded with value `n`; `none` models an absent or
non-numeric parameter (both of which the source maps to the default before
clamping). -/
def parse_pagination (limitQ offsetQ : Option Int) : Int × Int :=
  let limit := limitQ.getD 50
  let offset := offsetQ.getD 0
  (max 1 (min limit 200), max 0 offset)

/-! ### Slug mapper (`core/views.py`) -/

/-- `SLUG_TO_TYPES`: frontend slug to the list of stored `Expense.type`
labels that should match it. -/
def SLUG_TO_TYPES : List (String × List String) :=
  [("expense", ["Expense", "Expenses", ""]),
   ("savings", ["Savings", "Saving"]),
   ("emis", ["EMIs", "EMI"]),
   ("loans&advance", ["Loans&Advance", "Loans & Advance", "Loan", "Loans"]),
   ("other", ["Other"])]

/-- `ALL_SLUGS`. -/
def ALL_SLUGS : List String :=
  ["income", "expense", "savings", "emis", "loans&advance", "other"]

/-- `_labels_for_slug`. -/
def labels_for_slug (slug : String) : List String :=
  (SLUG_TO_TYPES.lookup slug).getD []

/-- The five expense-side slugs iterated by `_present_type_slugs`. -/
def EXPENSE_SLUGS : List String :=
  ["expense", "savings", "emis", "loans&advance", "other"]

/-- The expense-side part of `_present_type_slugs`: the slugs whose label
set meets the (trimmed) `Expense.type` values stored for the user.  The set
intersection `existing_types & labels` of the source is rendered as an
existence test ranging over the same elements. -/
def present_slug_hits (user : Nat) (db : Database) : List String :=
  EXPENSE_SLUGS.filter (fun slug =>
    ((db.expenses.filter (fun e => e.user == some user)).map
        (fun e => strip (e.type.getD ""))).any
      (fun t => (labels_for_slug slug).contains t))

/-- `_present_type_slugs`: slugs present in the caller's data, prefixed with
`"all"`, falling back to the full list when nothing is present. -/
def present_type_slugs (user : Nat) (db : Database) : List String :=
  let slugs :=
    (if db.incomes.any (fun r => r.user == some user) then ["income"] else [])
      ++ present_slug_hits user db
  "all" :: (if slugs.isEmpty then ALL_SLUGS else slugs)

/-! ### List endpoints (`income_list`, `expense_list`, `budget_list`, GET) -/

/-- Row predicate of `income_list` GET: user scoping plus the optional
filters.  `from_d`, `to_d` are the results of `_parse_date` (`none` when the
parameter was absent or unparseable); `min_amt`, `max_amt` are `none` when
the parameter was absent or empty. -/
def income_list_pred (user : Nat) (from_d to_d : Option String)
    (min_amt max_amt : Option Int) (remark : String) (r : IncomeRow) : Bool :=
  r.user == some user
    && (match from_d with | some d => str_le d r.date | none => true)
    && (match to_d with | some d => str_le r.date d | none => true)
    && (match min_amt with | some m => decide (m ≤ r.amount) | none => true)
    && (match max_amt with | some m => decide (r.amount ≤ m) | none => true)
    && (remark == "" || (icontains r.remark remark || icontains r.source remark))

/-- `income_list` GET: `{count, results}` with count taken before slicing. -/
def income_list_get (user : Nat) (from_d to_d : Option String)
    (min_amt max_amt : Option Int) (remark_q : Option String)
    (limitQ offsetQ : Option Int) (db : Database) : Nat × List IncomeRow :=
  let remark := strip (remark_q.getD "")
  let qs := db.incomes.filter (income_list_pred user from_d to_d min_amt max_amt remark)
  let qs := order_by_date_id_desc (fun r => r.date) (fun r => r.id) qs
  let p := parse_pagination limitQ offsetQ
  (qs.length, (qs.drop p.2.toNat).take p.1.toNat)

/-- Row predicate of `expense_list` GET, including the slug-resolved type
filter (`type__in=labels`, applied only when the slug is a key of
`SLUG_TO_TYPES`; SQL `IN` never matches a NULL column). -/
def expense_list_pred (user : Nat) (from_d to_d : Option String)
    (min_amt max_amt : Option Int) (remark category_q t_slug : String)
    (e : ExpenseRow) : Bool :=
  e.user == some user
    && (match from_d with | some d => str_le d e.date | none => true)
    && (match to_d with | some d => str_le e.date d | none => true)
    && (match min_amt with | some m => decide (m ≤ e.amount) | none => true)
    && (match max_amt with | some m => decide (e.amount ≤ m) | none => true)
    && (remark == "" || icontains e.remark remark)
    && (category_q == "" || icontains e.category category_q)
    && (if (SLUG_TO_TYPES.lookup t_slug).isSome then
          (match e.type with
           | some s => (labels_for_slug t_slug).contains s
           | none => false)
        else true)

/-- `expense_list` GET. -/
def expense_list_get (user : Nat) (from_d to_d : Option String)
    (min_amt max_amt : Option Int) (remark_q category_q_raw type_q : Option String)
    (limitQ offsetQ : Option Int) (db : Database) : Nat × List ExpenseRow :=
  let remark := strip (remark_q.getD "")
  let category_q := strip (category_q_raw.getD "")
  let t_slug := lower (strip (type_q.getD ""))
  let qs := db.expenses.filter
    (expense_list_pred user from_d to_d min_amt max_amt remark category_q t_slug)
  let qs := order_by_date_id_desc (fun e => e.date) (fun e => e.id) qs
  let p := parse_pagination limitQ offsetQ
  (qs.length, (qs.drop p.2.toNat).take p.1.toNat)

/-- `budget_list` GET. -/
def budget_list_get (user : Nat) (from_d to_d : Option String)
    (limitQ offsetQ : Option Int) (db : Database) : Nat × List BudgetRow :=
  let qs := db.budgets.filter (fun b =>
    b.user == some user
      && (match from_d with | some d => str_le d b.date | none => true)
      && (match to_d with | some d => str_le b.date d | none => true))
  let qs := order_by_date_id_desc (fun b => b.date) (fun b => b.id) qs
  let p := parse_pagination limitQ offsetQ
  (qs.length, (qs.drop p.2.toNat).take p.1.toNat)

/-! ### Detail endpoints and writes -/

/-- The object lookup of `income_detail`:
`Income.objects.filter(user=request.user).get(pk=pk)`; `none` is the 404
branch. -/
def income_detail_lookup (user pk : Nat) (db : Database) : Option IncomeRow :=
  (db.incomes.filter (fun r => r.user == some user)).find? (fun r => r.id == pk)

/-- The object lookup of `expense_detail`. -/
def expense_detail_lookup (user pk : Nat) (db : Database) : Option ExpenseRow :=
  (db.expenses.filter (fun e => e.user == some user)).find? (fun e => e.id == pk)

/-- `income_list` POST: `ser.save(user=request.user)` — the serializer marks
`user` read-only, so the stored owner is always the authenticated caller,
regardless of anything in the client payload. -/
def income_create (caller next_id : Nat) (amount : Int)
    (date source remark : String) : IncomeRow :=
  { id := next_id, user := some caller, amount := amount,
    date := date, source := source, remark := remark }

/-- `income_detail` PUT/PATCH: `ser.save()` on the looked-up instance with
`user` read-only — every writable field may change but `user` (and `id`)
never do. -/
def income_update (obj : IncomeRow) (amount : Int)
    (date source remark : String) : IncomeRow :=
  { obj with amount := amount, date := date, source := source, remark := remark }

/-- `expense_list` POST (owner always the caller). -/
def expense_create (caller next_id : Nat) (date : String) (amount : Int)
    (remark : String) (type : Option String) (category : String) : ExpenseRow :=
  { id := next_id, user := some caller, date := date, amount := amount,
    remark := remark, type := type, category := category }

/-- `expense_detail` PUT/PATCH (`user` read-only). -/
def expense_update (obj : ExpenseRow) (date : String) (amount : Int)
    (remark : String) (type : Option String) (category : String) : ExpenseRow :=
  { obj with
    date := date, amount := amount, remark := remark,
    type := type, category := category }

/-- `budget_list` POST (owner always the caller). -/
def budget_create (caller next_id : Nat) (category subcategory : String)
    (amount : Int) (date : String) : BudgetRow :=
  { id := next_id, user := some caller, category := category,
    subcategory := subcategory, amount := amount, date := date }

/-! ### Expense serializer validation (`core/serializers.py`) -/

/-- The normalized type of `ExpenseSerializer.validate`:
`t = (attrs.get("type") or "").strip() or "Expense"`. -/
def normalize_type (type : Option String) : String :=
  if strip (type.getD "") = "" then "Expense" else strip (type.getD "")

/-- Result of `ExpenseSerializer.validate`: the normalized `(type, category)`
pair, or a field-keyed validation error (HTTP 400). -/
inductive ExpenseValidateResult where
  | ok (type category : String)
  | error (field : String) (msgs : List String)
deriving DecidableEq, Repr

/-- The type values for which `category` is required. -/
def recognized_types : List String :=
  ["expense", "saving", "savings", "emis", "emi", "loans&advance", "loan", "loans"]

/-- `ExpenseSerializer.validate`: defaults blank type to `"Expense"`,
force-normalizes `other`, and requires `category` for the recognized
expense-like types.  `none` models an absent attribute (Python `None`). -/
def expense_validate (type category : Option String) : ExpenseValidateResult :=
  if lower (normalize_type type) = "other" then
    .ok "Other"
      (if strip (category.getD "") = "" then "Other" else strip (category.getD ""))
  else if lower (normalize_type type) ∈ recognized_types ∧ strip (category.getD "") = "" then
    .error "category" ["Category is required."]
  else
    .ok (normalize_type type) (strip (category.getD ""))

/-! ### Unified transaction feed (`transaction_history`) -/

/-- One normalized row of the unified feed. -/
structure TxRow where
  id : Nat
  type : String
  date : String
  amount : Int
  remark : String
  category : String
deriving DecidableEq, Repr

/-- Sort key of the feed: `(x.get("date", ""), str(x.get("id", "")))` —
the id is converted to a string. -/
def tx_key (x : TxRow) : String × String := (x.date, toString x.id)

/-- Python tuple comparison `a <= b` on the (date, id-as-string) keys:
lexicographic over string comparison in both components. -/
def pair_le (a b : String × String) : Bool :=
  str_lt a.1 b.1 || (a.1 == b.1 && str_le a.2 b.2)

/-- `rows.sort(key=..., reverse=True)`: stable descending sort by `tx_key`.
A Python stable reverse sort places `a` before `b` exactly when the key of
`a` is not smaller, keeping the original order on equal keys, which is what
a stable sort with this `le` does. -/
def tx_sort (rows : List TxRow) : List TxRow :=
  stable_sort (fun a b => pair_le (tx_key b) (tx_key a)) rows

/-- Income branch filters of the feed (date range is always applied because
the view defaults it; the category parameter matches source OR remark). -/
def income_feed_pred (user : Nat) (from_d to_d : String)
    (min_amt max_amt : Option Int) (remark category_q : String)
    (r : IncomeRow) : Bool :=
  r.user == some user
    && str_le from_d r.date && str_le r.date to_d
    && (match min_amt with | some m => decide (m ≤ r.amount) | none => true)
    && (match max_amt with | some m => decide (r.amount ≤ m) | none => true)
    && (remark == "" || (icontains r.remark remark || icontains r.source remark))
    && (category_q == "" || (icontains r.source category_q || icontains r.remark category_q))

/-- Normalization of an income row to a feed row. -/
def income_to_tx (r : IncomeRow) : TxRow :=
  { id := r.id, type := "Income", date := r.date, amount := r.amount,
    remark := if r.remark = "" then r.source else r.remark,
    category := r.source }

/-- Common expense-side filters of the feed (before the type restriction). -/
def expense_feed_base (user : Nat) (from_d to_d : String)
    (min_amt max_amt : Option Int) (remark category_q : String)
    (e : ExpenseRow) : Bool :=
  e.user == some user
    && str_le from_d e.date && str_le e.date to_d
    && (match min_amt with | some m => decide (m ≤ e.amount) | none => true)
    && (match max_amt with | some m => decide (e.amount ≤ m) | none => true)
    && (remark == "" || icontains e.remark remark)
    && (category_q == "" || icontains e.category category_q)

/-- The per-slug type restriction of the feed: `__iexact` against the one
canonical label (plus NULL/empty for `expense`), `all` unrestricted, and an
empty queryset for every other requested type. -/
def feed_type_match (t_type : String) (ty : Option String) : Bool :=
  if t_type = "expense" then
    (match ty with | none => true | some s => iexact s "Expense" || s == "")
  else if t_type = "savings" then
    (match ty with | none => false | some s => iexact s "Savings")
  else if t_type = "emis" then
    (match ty with | none => false | some s => iexact s "EMIs")
  else if t_type = "loans&advance" then
    (match ty with | none => false | some s => iexact s "Loans&Advance")
  else if t_type = "other" then
    (match ty with | none => false | some s => iexact s "Other")
  else if t_type = "all" then true
  else false

/-- Normalization of an expense row to a feed row. -/
def expense_to_tx (e : ExpenseRow) : TxRow :=
  { id := e.id,
    type := if e.type.getD "" = "" then "Expense" else e.type.getD "",
    date := e.date, amount := e.amount, remark := e.remark,
    category := e.category }

/-- The income-derived feed rows (present only for type `income` or `all`),
enumerated in the model's default `-date, -id` order. -/
def income_tx_rows (user : Nat) (t_type from_d to_d : String)
    (min_amt max_amt : Option Int) (remark category_q : String)
    (db : Database) : List TxRow :=
  if t_type = "income" ∨ t_type = "all" then
    (order_by_date_id_desc (fun r => r.date) (fun r => r.id)
      (db.incomes.filter
        (income_feed_pred user from_d to_d min_amt max_amt remark category_q))).map
      income_to_tx
  else []

/-- The expense-derived feed rows. -/
def expense_tx_rows (user : Nat) (t_type from_d to_d : String)
    (min_amt max_amt : Option Int) (remark category_q : String)
    (db : Database) : List TxRow :=
  (order_by_date_id_desc (fun e => e.date) (fun e => e.id)
    (db.expenses.filter (fun e =>
      expense_feed_base user from_d to_d min_amt max_amt remark category_q e
        && feed_type_match t_type e.type))).map
    expense_to_tx

/-- The merged, sorted feed (everything of `transaction_history` before
`total`/slicing). -/
def transaction_rows (user : Nat) (t_type from_d to_d : String)
    (min_amt max_amt : Option Int) (remark category_q : String)
    (db : Database) : List TxRow :=
  tx_sort
    (income_tx_rows user t_type from_d to_d min_amt max_amt remark category_q db
      ++ expense_tx_rows user t_type from_d to_d min_amt max_amt remark category_q db)

/-- `today.take 8 ++ "01"` renders the first day of the current month in ISO
form, i.e. `date(today.year, today.month, 1)`. -/
def month_first (today : String) : String := ⟨today.data.take 8 ++ ['0', '1']⟩

/-- `transaction_history` GET: parameter normalization, merged rows, count
before pagination, slice after merge.  `today` is `date.today()` in ISO
form. -/
def transaction_history (user : Nat) (t_type_q from_q to_q : Option String)
    (min_amt max_amt : Option Int) (remark_q category_q : Option String)
    (limitQ offsetQ : Option Int) (today : String) (db : Database) :
    Nat × List TxRow :=
  let t_type := lower (t_type_q.getD "all")
  let remark := strip (remark_q.getD "")
  let category := strip (category_q.getD "")
  let p := parse_pagination limitQ offsetQ
  let from_d := from_q.getD (month_first today)
  let to_d := to_q.getD today
  let rows := transaction_rows user t_type from_d to_d min_amt max_amt remark category db
  (rows.length, (rows.drop p.2.toNat).take p.1.toNat)

/-! ### Insights (`insights_summary`) -/

/-- One output row of the insights endpoint.  `planned`, `actual` and
`difference` are exact integers in this model (the source converts to
`float`, but every value involved originates from exact decimal columns). -/
structure InsightRow where
  category : String
  subcategory : String
  planned : Int
  actual : Int
  difference : Int
deriving DecidableEq, Repr

/-- Django `date__year=.. , date__month=..` against today's year and month,
on ISO date strings: the `YYYY-MM` prefixes agree. -/
def same_month (d today : String) : Bool := d.data.take 7 == today.data.take 7

/-- `insights_summary`: one row per budget of the caller; `actual` sums the
matching expenses (budget category `expense`), the matching incomes
(`saving`/`savings`), and is 0 otherwise; scope `month` restricts both sums
to the current calendar month. -/
def insights_summary (user : Nat) (scope today : String) (db : Database) :
    List InsightRow :=
  let exp_qs := db.expenses.filter (fun e => e.user == some user)
  let inc_qs := db.incomes.filter (fun r => r.user == some user)
  let exp_qs := if scope = "month" then exp_qs.filter (fun e => same_month e.date today) else exp_qs
  let inc_qs := if scope = "month" then inc_qs.filter (fun r => same_month r.date today) else inc_qs
  (order_by_date_id_desc (fun b => b.date) (fun b => b.id)
      (db.budgets.filter (fun b => b.user == some user))).map
    (fun b =>
      let cat := lower (strip b.category)
      let sub := strip b.subcategory
      let actual : Int :=
        if cat = "expense" then
          ((exp_qs.filter (fun e => iexact e.category sub)).map (fun e => e.amount)).sum
        else if cat = "saving" ∨ cat = "savings" then
          ((inc_qs.filter (fun r =>
              icontains r.remark sub || icontains r.source sub)).map
            (fun r => r.amount)).sum
        else 0
      { category := b.category, subcategory := b.subcategory,
        planned := b.amount, actual := actual,
        difference := actual - b.amount })

/-! ### Concrete fixtures used by witnesses and counterexamples -/

/-- Two same-day expenses with ids 9 and 10 (claim C1). -/
def e_C1_a : ExpenseRow :=
  { id := 9, user := some 1, date := "2024-06-05", amount := 10,
    remark := "", type := some "Expense", category := "Food" }

/-- Companion row of `e_C1_a`. -/
def e_C1_b : ExpenseRow :=
  { id := 10, user := some 1, date := "2024-06-05", amount := 20,
    remark := "", type := some "Expense", category := "Food" }

/-- Store for the claim C1 counterexample. -/
def db_C1 : Database := { incomes := [], expenses := [e_C1_a, e_C1_b], budgets := [] }

/-- Income row for the claim C2 witness. -/
def inc_C2 : IncomeRow :=
  { id := 1, user := some 1, amount := 500, date := "2024-06-02",
    source := "Salary", remark := "SIP june" }

/-- Expense row for the claim C2 witness. -/
def exp_C2 : ExpenseRow :=
  { id := 1, user := some 1, date := "2024-06-10", amount := 40,
    remark := "", type := some "Expense", category := "Food" }

/-- Budget row for the claim C2 witness. -/
def bud_C2 : BudgetRow :=
  { id := 1, user := some 1, category := "Expense", subcategory := "Food",
    amount := 50, date := "2024-06-01" }

/-- Store for the claim C2 witness. -/
def db_C2 : Database := { incomes := [inc_C2], expenses := [exp_C2], budgets := [bud_C2] }

/-- An income row owned by user 2 (claim C3 witness). -/
def inc_C3 : IncomeRow :=
  { id := 1, user := some 2, amount := 100, date := "2024-06-01",
    source := "Salary", remark := "" }

/-- Store for the claim C3 witness. -/
def db_C3 : Database := { incomes := [inc_C3], expenses := [], budgets := [] }

/-- An expense stored with the legacy variant spelling `"Saving"` (claim C8). -/
def e_C8 : ExpenseRow :=
  { id := 1, user := some 1, date := "2024-06-10", amount := 100,
    remark := "", type := some "Saving", category := "SIP" }

/-- Store for claim C8. -/
def db_C8 : Database := { incomes := [], expenses := [e_C8], budgets := [] }

/-- An expense stored with the lower-cased type `"savings"` (claim C9). -/
def e_C9_a : ExpenseRow :=
  { id := 1, user := some 1, date := "2024-06-10", amount := 5,
    remark := "", type := some "savings", category := "SIP" }

/-- An expense with the canonical label, preventing the empty-data fallback
of `_present_type_slugs` (claim C9). -/
def e_C9_b : ExpenseRow :=
  { id := 2, user := some 1, date := "2024-06-11", amount := 7,
    remark := "", type := some "Expense", category := "Food" }

/-- Store for claim C9. -/
def db_C9 : Database := { incomes := [], expenses := [e_C9_a, e_C9_b], budgets := [] }

/-- An expense stored with type `"Expenses"` (claim C10). -/
def e_C10_a : ExpenseRow :=
  { id := 1, user := some 1, date := "2024-06-10", amount := 5,
    remark := "", type := some "Expenses", category := "X" }

/-- An expense stored with lower-case type `"expense"` (claim C10). -/
def e_C10_b : ExpenseRow :=
  { id := 2, user := some 1, date := "2024-06-10", amount := 6,
    remark := "", type := some "expense", category := "X" }

/-- Store for claim C10. -/
def db_C10 : Database := { incomes := [], expenses := [e_C10_a, e_C10_b], budgets := [] }

/-! ## General lemmas about the sorting and string primitives -/

theorem char_eq_of_toNat_eq {a b : Char} (h : a.toNat = b.toNat) : a = b :=
  Char.ext (UInt32.ext h)

theorem string_eq_of_data_eq {a b : String} (h : a.data = b.data) : a = b := by
  cases a; cases b; exact congrArg String.mk h

theorem chars_le_total : ∀ l m : List Char, chars_le l m = true ∨ chars_le m l = true
  | [], _ => Or.inl rfl
  | _ :: _, [] => Or.inr rfl
  | a :: as, b :: bs => by
    simp only [chars_le, Bool.or_eq_true, Bool.and_eq_true, decide_eq_true_eq]
    rcases Nat.lt_trichotomy a.toNat b.toNat with h | h | h
    · exact Or.inl (Or.inl h)
    · rcases chars_le_total as bs with ih | ih
      · exact Or.inl (Or.inr ⟨h, ih⟩)
      · exact Or.inr (Or.inr ⟨h.symm, ih⟩)
    · exact Or.inr (Or.inl h)

theorem chars_le_trans : ∀ {l m n : List Char},
    chars_le l m = true → chars_le m n = true → chars_le l n = true
  | [], _, _, _, _ => rfl
  | _ :: _, [], _, h, _ => by simp [chars_le] at h
  | _ :: _, _ :: _, [], _, h => by simp [chars_le] at h
  | a :: as, b :: bs, c :: cs, h1, h2 => by
    simp only [chars_le, Bool.or_eq_true, Bool.and_eq_true, decide_eq_true_eq] at h1 h2 ⊢
    rcases h1 with h1 | ⟨h1e, h1t⟩ <;> rcases h2 with h2 | ⟨h2e, h2t⟩
    · exact Or.inl (Nat.lt_trans h1 h2)
    · exact Or.inl (h2e ▸ h1)
    · exact Or.inl (h1e ▸ h2)
    · exact Or.inr ⟨h1e.trans h2e, chars_le_trans h1t h2t⟩

theorem chars_lt_trans : ∀ {l m n : List Char},
    chars_lt l m = true → chars_lt m n = true → chars_lt l n = true
  | [], [], _, h, _ => by simp [chars_lt] at h
  | [], _ :: _, [], _, h => by simp [chars_lt] at h
  | [], _ :: _, _ :: _, _, _ => rfl
  | _ :: _, [], _, h, _ => by simp [chars_lt] at h
  | _ :: _, _ :: _, [], _, h => by simp [chars_lt] at h
  | a :: as, b :: bs, c :: cs, h1, h2 => by
    simp only [chars_lt, Bool.or_eq_true, Bool.and_eq_true, decide_eq_true_eq] at h1 h2 ⊢
    rcases h1 with h1 | ⟨h1e, h1t⟩ <;> rcases h2 with h2 | ⟨h2e, h2t⟩
    · exact Or.inl (Nat.lt_trans h1 h2)
    · exact Or.inl (h2e ▸ h1)
    · exact Or.inl (h1e ▸ h2)
    · exact Or.inr ⟨h1e.trans h2e, chars_lt_trans h1t h2t⟩

theorem chars_lt_or_of_ne : ∀ {l m : List Char},
    l ≠ m → chars_lt l m = true ∨ chars_lt m l = true
  | [], [], h => absurd rfl h
  | [], _ :: _, _ => Or.inl rfl
  | _ :: _, [], _ => Or.inr rfl
  | a :: as, b :: bs, h => by
    simp only [chars_lt, Bool.or_eq_true, Bool.and_eq_true, decide_eq_true_eq]
    rcases Nat.lt_trichotomy a.toNat b.toNat with hlt | heq | hgt
    · exact Or.inl (Or.inl hlt)
    · have hab : a = b := char_eq_of_toNat_eq heq
      have htl : as ≠ bs := fun ht => h (by rw [hab, ht])
      rcases chars_lt_or_of_ne htl with ih | ih
      · exact Or.inl (Or.inr ⟨heq, ih⟩)
      · exact Or.inr (Or.inr ⟨heq.symm, ih⟩)
    · exact Or.inr (Or.inl hgt)

theorem pair_le_total (a b : String × String) :
    pair_le a b = true ∨ pair_le b a = true := by
  simp only [pair_le, str_lt, str_le, Bool.or_eq_true, Bool.and_eq_true, beq_iff_eq]
  by_cases h : a.1 = b.1
  · rcases chars_le_total a.2.data b.2.data with hc | hc
    · exact Or.inl (Or.inr ⟨h, hc⟩)
    · exact Or.inr (Or.inr ⟨h.symm, hc⟩)
  · have hd : a.1.data ≠ b.1.data := fun hd => h (string_eq_of_data_eq hd)
    rcases chars_lt_or_of_ne hd with hc | hc
    · exact Or.inl (Or.inl hc)
    · exact Or.inr (Or.inl hc)

theorem pair_le_trans {a b c : String × String}
    (h1 : pair_le a b = true) (h2 : pair_le b c = true) : pair_le a c = true := by
  simp only [pair_le, str_lt, str_le, Bool.or_eq_true, Bool.and_eq_true,
    beq_iff_eq] at h1 h2 ⊢
  rcases h1 with h1 | ⟨h1e, h1t⟩ <;> rcases h2 with h2 | ⟨h2e, h2t⟩
  · exact Or.inl (chars_lt_trans h1 h2)
  · exact Or.inl (by rw [← h2e]; exact h1)
  · exact Or.inl (by rw [h1e]; exact h2)
  · exact Or.inr ⟨h1e.trans h2e, chars_le_trans h1t h2t⟩

theorem ins_le_perm {α : Type} (le : α → α → Bool) (a : α) :
    ∀ l : List α, (ins_le le a l).Perm (a :: l)
  | [] => List.Perm.refl _
  | b :: t => by
    rw [ins_le]
    by_cases h : le a b = true
    · rw [if_pos h]
    · rw [if_neg h]
      exact ((ins_le_perm le a t).cons b).trans (List.Perm.swap a b t)

theorem stable_sort_perm {α : Type} (le : α → α → Bool) :
    ∀ l : List α, (stable_sort le l).Perm l
  | [] => List.Perm.refl _
  | a :: t =>
    (ins_le_perm le a (stable_sort le t)).trans ((stable_sort_perm le t).cons a)

theorem mem_ins_le {α : Type} {le : α → α → Bool} {a x : α} {l : List α} :
    x ∈ ins_le le a l ↔ x = a ∨ x ∈ l := by
  rw [(ins_le_perm le a l).mem_iff, List.mem_cons]

theorem mem_stable_sort {α : Type} {le : α → α → Bool} {x : α} {l : List α} :
    x ∈ stable_sort le l ↔ x ∈ l :=
  (stable_sort_perm le l).mem_iff

theorem ins_le_pairwise {α : Type} {le : α → α → Bool}
    (htrans : ∀ a b c, le a b = true → le b c = true → le a c = true)
    (htotal : ∀ a b, le a b = true ∨ le b a = true) (a : α) :
    ∀ {l : List α}, List.Pairwise (fun x y => le x y = true) l →
      List.Pairwise (fun x y => le x y = true) (ins_le le a l) := by
  intro l h
  induction l with
  | nil => simp [ins_le]
  | cons b t ih =>
    obtain ⟨hb, ht⟩ := List.pairwise_cons.mp h
    rw [ins_le]
    by_cases hab : le a b = true
    · rw [if_pos hab]
      refine List.pairwise_cons.mpr ⟨?_, h⟩
      intro x hx
      rcases List.mem_cons.mp hx with hx | hx
      · exact hx ▸ hab
      · exact htrans a b x hab (hb x hx)
    · rw [if_neg hab]
      refine List.pairwise_cons.mpr ⟨?_, ih ht⟩
      intro x hx
      rcases mem_ins_le.mp hx with hx | hx
      · exact hx ▸ (htotal a b).resolve_left hab
      · exact hb x hx

theorem stable_sort_pairwise {α : Type} {le : α → α → Bool}
    (htrans : ∀ a b c, le a b = true → le b c = true → le a c = true)
    (htotal : ∀ a b, le a b = true ∨ le b a = true) :
    ∀ l : List α, List.Pairwise (fun x y => le x y = true) (stable_sort le l)
  | [] => List.Pairwise.nil
  | a :: t =>
    ins_le_pairwise htrans htotal a (stable_sort_pairwise htrans htotal t)

theorem mem_order_by {α : Type} {dateOf : α → String} {idOf : α → Nat}
    {l : List α} {x : α} :
    x ∈ order_by_date_id_desc dateOf idOf l ↔ x ∈ l :=
  (stable_sort_perm _ l).mem_iff

theorem mem_page {α : Type} {x : α} {l : List α} {n m : Nat}
    (h : x ∈ (l.drop n).take m) : x ∈ l :=
  List.mem_of_mem_drop (List.mem_of_mem_take h)

theorem mem_present_slug_hits {user : Nat} {db : Database} {slug : String} :
    slug ∈ present_slug_hits user db ↔
      slug ∈ EXPENSE_SLUGS ∧
        ∃ e ∈ db.expenses, e.user = some user ∧
          strip (e.type.getD "") ∈ labels_for_slug slug := by
  constructor
  · intro h
    obtain ⟨hs, hp⟩ := List.mem_filter.mp h
    refine ⟨hs, ?_⟩
    obtain ⟨t, ht, hc⟩ := List.any_eq_true.mp hp
    obtain ⟨e, he, het⟩ := List.mem_map.mp ht
    obtain ⟨hee, heu⟩ := List.mem_filter.mp he
    exact ⟨e, hee, beq_iff_eq.mp heu, het ▸ List.elem_iff.mp hc⟩
  · intro ⟨hs, e, he, hu, hl⟩
    refine List.mem_filter.mpr ⟨hs, List.any_eq_true.mpr ?_⟩
    refine ⟨strip (e.type.getD ""), ?_, List.elem_iff.mpr hl⟩
    exact List.mem_map.mpr ⟨e, List.mem_filter.mpr ⟨he, beq_iff_eq.mpr hu⟩, rfl⟩

/-! ## Claim theorems -/

/-- Claim C4: an Expense write whose type normalizes (lower-cased, trimmed)
to one of the recognized expense-like values and whose category is blank or
missing fails with a validation error naming `category`; a non-blank
category never fails this rule; a non-blank unrecognized type is accepted
as-is without the category requirement. -/
theorem claim_C4 (type category : Option String) :
    (lower (strip (type.getD "")) ∈ recognized_types →
      strip (category.getD "") = "" →
      expense_validate type category = .error "category" ["Category is required."]) ∧
    (strip (category.getD "") ≠ "" →
      ∀ f msgs, expense_validate type category ≠ .error f msgs) ∧
    (strip (type.getD "") ≠ "" →
      lower (strip (type.getD "")) ∉ recognized_types →
      lower (strip (type.getD "")) ≠ "other" →
      expense_validate type category
        = .ok (strip (type.getD "")) (strip (category.getD ""))) := by
  refine ⟨?_, ?_, ?_⟩
  · intro hmem hc
    have h0 : strip (type.getD "") ≠ "" := by
      intro h; rw [h] at hmem; exact absurd hmem (by decide)
    have hnorm : normalize_type type = strip (type.getD "") := if_neg h0
    have hoth : ¬ lower (strip (type.getD "")) = "other" := by
      intro h; rw [h] at hmem; exact absurd hmem (by decide)
    simp only [expense_validate, hnorm]
    rw [if_neg hoth, if_pos ⟨hmem, hc⟩]
  · intro hc f msgs h
    simp only [expense_validate] at h
    split_ifs at h with h1 h2
    exact hc h2.2
  · intro h0 hmem hoth
    have hnorm : normalize_type type = strip (type.getD "") := if_neg h0
    simp only [expense_validate, hnorm]
    rw [if_neg hoth, if_neg (fun hc : _ ∧ _ => hmem hc.1)]

/-- Claim C4 witness: a recognized type with a blank category is rejected
naming `category`, and an unrecognized type with a blank category is
accepted as-is. -/
theorem claim_C4_witness :
    expense_validate (some " Saving ") none
      = .error "category" ["Category is required."] ∧
    expense_validate (some "weird") none = .ok "weird" "" := by
  refine ⟨(claim_C4 (some " Saving ") none).1 (by decide) (by decide), ?_⟩
  exact (claim_C4 (some "weird") none).2.2 (by decide) (by decide) (by decide)

/-- Claim C6: a type normalizing to `other` is stored as `Other` with
category defaulted to `Other` when blank (the non-blank trimmed category is
kept) and such a write never fails; a blank or absent type defaults to
`Expense`. -/
theorem claim_C6 (type category : Option String) :
    (lower (strip (type.getD "")) = "other" →
      expense_validate type category
        = .ok "Other" (if strip (category.getD "") = "" then "Other"
            else strip (category.getD ""))) ∧
    (strip (type.getD "") = "" →
      expense_validate type category
        = if strip (category.getD "") = "" then
            .error "category" ["Category is required."]
          else .ok "Expense" (strip (category.getD ""))) := by
  constructor
  · intro h
    have h0 : strip (type.getD "") ≠ "" := by
      intro h0; rw [h0] at h; exact absurd h (by decide)
    have hnorm : normalize_type type = strip (type.getD "") := if_neg h0
    simp only [expense_validate, hnorm]
    rw [if_pos h]
  · intro h0
    have hnorm : normalize_type type = "Expense" := if_pos h0
    simp only [expense_validate, hnorm]
    by_cases hc : strip (category.getD "") = ""
    · rw [if_neg (by decide : ¬ lower "Expense" = "other"),
        if_pos ⟨by decide, hc⟩, if_pos hc]
    · rw [if_neg (by decide : ¬ lower "Expense" = "other"),
        if_neg (fun hx : _ ∧ _ => hc hx.2), if_neg hc]

/-- Claim C6 witness: `" OTHER "` is force-set to `Other`/`Other`, and an
absent type with a category becomes `Expense`. -/
theorem claim_C6_witness :
    expense_validate (some " OTHER ") none = .ok "Other" "Other" ∧
    expense_validate none (some "Food") = .ok "Expense" "Food" := by
  constructor
  · exact (claim_C6 (some " OTHER ") none).1 (by decide)
  · exact (claim_C6 none (some "Food")).2 (by decide)

/-- Claim C5 counterexample: a numeric limit below 1 is clamped to 1, not
replaced by the default 50 as the claim states. -/
theorem claim_C5_cex :
    parse_pagination (some 0) (some (-3)) = (1, 0) ∧
    (parse_pagination (some 0) (some (-3))).1 ≠ 50 := by decide

/-- Claim C5 (amended): limits above 200 are clamped to 200, numeric limits
below 1 are clamped to 1 (not replaced by 50), in-range limits are kept,
absent/non-numeric limits fall back to 50, negative offsets are clamped to
0, non-negative offsets are kept, absent/non-numeric offsets fall back to
0; the effective limit always lies in [1, 200] and the effective offset is
never negative, and no input produces an error. -/
theorem claim_C5 (limitQ offsetQ : Option Int) :
    (∀ l : Int, limitQ = some l → 200 < l → (parse_pagination limitQ offsetQ).1 = 200) ∧
    (∀ l : Int, limitQ = some l → l < 1 → (parse_pagination limitQ offsetQ).1 = 1) ∧
    (∀ l : Int, limitQ = some l → 1 ≤ l → l ≤ 200 →
      (parse_pagination limitQ offsetQ).1 = l) ∧
    (limitQ = none → (parse_pagination limitQ offsetQ).1 = 50) ∧
    (∀ o : Int, offsetQ = some o → o < 0 → (parse_pagination limitQ offsetQ).2 = 0) ∧
    (∀ o : Int, offsetQ = some o → 0 ≤ o → (parse_pagination limitQ offsetQ).2 = o) ∧
    (offsetQ = none → (parse_pagination limitQ offsetQ).2 = 0) ∧
    1 ≤ (parse_pagination limitQ offsetQ).1 ∧
    (parse_pagination limitQ offsetQ).1 ≤ 200 ∧
    0 ≤ (parse_pagination limitQ offsetQ).2 := by
  refine ⟨?_, ?_, ?_, ?_, ?_, ?_, ?_, ?_, ?_, ?_⟩
  · intro l h hl; subst h; show max 1 (min l 200) = 200; omega
  · intro l h hl; subst h; show max 1 (min l 200) = 1; omega
  · intro l h h1 h2; subst h; show max 1 (min l 200) = l; omega
  · intro h; subst h; show max 1 (min 50 200) = 50; omega
  · intro o h ho; subst h; show max 0 o = 0; omega
  · intro o h ho; subst h; show max 0 o = o; omega
  · intro h; subst h; show max 0 0 = 0; omega
  · show 1 ≤ max 1 (min (limitQ.getD 50) 200); omega
  · show max 1 (min (limitQ.getD 50) 200) ≤ 200; omega
  · show 0 ≤ max 0 (offsetQ.getD 0); omega

/-- Claim C5 witness: concrete clampings. -/
theorem claim_C5_witness :
    (parse_pagination (some 500) (some (-2))).1 = 200 ∧
    (parse_pagination (some 500) (some (-2))).2 = 0 ∧
    (parse_pagination none (some 7)).1 = 50 ∧
    (parse_pagination none (some 7)).2 = 7 := by
  refine ⟨(claim_C5 (some 500) (some (-2))).1 500 rfl (by decide),
    (claim_C5 (some 500) (some (-2))).2.2.2.2.1 (-2) rfl (by decide),
    (claim_C5 none (some 7)).2.2.2.1 rfl,
    (claim_C5 none (some 7)).2.2.2.2.2.1 7 rfl (by decide)⟩

/-- Claim C10: the slug `expense` selects different Expense row sets on the
expense list endpoint and on the unified feed: the former matches exact
membership in `{"Expense", "Expenses", ""}`, the latter matches type
case-insensitively equal to `Expense`, or null, or empty; a row stored with
type `"Expenses"` is selected only by the former, and a row stored with
type `"expense"` only by the latter. -/
theorem claim_C10 :
    labels_for_slug "expense" = ["Expense", "Expenses", ""] ∧
    expense_list_pred 1 none none none none "" "" "expense" e_C10_a = true ∧
    feed_type_match "expense" (some "Expenses") = false ∧
    expense_list_pred 1 none none none none "" "" "expense" e_C10_b = false ∧
    feed_type_match "expense" (some "expense") = true ∧
    feed_type_match "expense" none = true ∧
    feed_type_match "expense" (some "") = true ∧
    ((expense_list_get 1 none none none none none none (some "expense") none none
        db_C10).2.map (fun e => e.id)) = [1] ∧
    ((transaction_history 1 (some "expense") (some "2024-06-01") (some "2024-06-30")
        none none none none none none "2024-06-30" db_C10).2.map (fun r => r.id))
      = [2] := by
  decide

/-- Claim C1 counterexample: two expense rows share the date `2024-06-05`
and carry the ids 9 and 10; in the feed the row with id 9 comes first —
under the descending string sort `"9" > "10"`, so id "9" orders BEFORE id
"10", not after it as the claim's example states. -/
theorem claim_C1_cex :
    ((transaction_history 1 (some "all") (some "2024-06-01") (some "2024-06-30")
        none none none none none none "2024-06-30" db_C1).2.map (fun r => r.date))
      = ["2024-06-05", "2024-06-05"] ∧
    ((transaction_history 1 (some "all") (some "2024-06-01") (some "2024-06-30")
        none none none none none none "2024-06-30" db_C1).2.map (fun r => r.id))
      = [9, 10] ∧
    ¬ ((transaction_history 1 (some "all") (some "2024-06-01") (some "2024-06-30")
        none none none none none none "2024-06-30" db_C1).2.map (fun r => r.id))
      = [10, 9] := by
  decide

/-- Claim C1 (amended): the unified feed is the concatenation of the
Income-derived and the Expense-derived rows, sorted in descending order by
the pair (date, id converted to a string); on equal dates the tie-break
compares ids lexicographically as strings, so id "9" orders before id "10"
in the output. -/
theorem claim_C1 (user : Nat) (t_type from_d to_d : String)
    (min_amt max_amt : Option Int) (remark category_q : String) (db : Database) :
    List.Pairwise (fun a b => pair_le (tx_key b) (tx_key a) = true)
      (transaction_rows user t_type from_d to_d min_amt max_amt remark category_q db) ∧
    (transaction_rows user t_type from_d to_d min_amt max_amt remark category_q db).Perm
      (income_tx_rows user t_type from_d to_d min_amt max_amt remark category_q db ++
        expense_tx_rows user t_type from_d to_d min_amt max_amt remark category_q db) := by
  constructor
  · exact @stable_sort_pairwise TxRow (fun a b => pair_le (tx_key b) (tx_key a))
      (fun a b c hab hbc => pair_le_trans hbc hab)
      (fun a b => pair_le_total (tx_key b) (tx_key a)) _
  · exact stable_sort_perm _ _

/-- Every list is its own slice with a contiguous remainder on each side. -/
theorem exists_slice_decomp {α : Type} (l : List α) (n m : Nat) :
    ∃ s t : List α, l = s ++ (l.drop n).take m ++ t :=
  ⟨l.take n, (l.drop n).drop m, by
    rw [List.append_assoc, List.take_append_drop, List.take_append_drop]⟩

/-- Claim C7: the feed's `count` is the length of the merged, filtered list
before pagination; the offset/limit window is cut from the merged, sorted
list; the count does not depend on the pagination parameters; and the
returned page is a contiguous slice of the merged sorted list. -/
theorem claim_C7 (user : Nat) (t_type_q from_q to_q : Option String)
    (min_amt max_amt : Option Int) (remark_q category_q : Option String)
    (limitQ offsetQ limitQ2 offsetQ2 : Option Int) (today : String) (db : Database) :
    (transaction_history user t_type_q from_q to_q min_amt max_amt remark_q category_q
        limitQ offsetQ today db).1
      = (transaction_rows user (lower (t_type_q.getD "all"))
          (from_q.getD (month_first today)) (to_q.getD today) min_amt max_amt
          (strip (remark_q.getD "")) (strip (category_q.getD "")) db).length ∧
    (transaction_history user t_type_q from_q to_q min_amt max_amt remark_q category_q
        limitQ offsetQ today db).2
      = ((transaction_rows user (lower (t_type_q.getD "all"))
            (from_q.getD (month_first today)) (to_q.getD today) min_amt max_amt
            (strip (remark_q.getD "")) (strip (category_q.getD "")) db).drop
          (parse_pagination limitQ offsetQ).2.toNat).take
          (parse_pagination limitQ offsetQ).1.toNat ∧
    (transaction_history user t_type_q from_q to_q min_amt max_amt remark_q category_q
        limitQ offsetQ today db).1
      = (transaction_history user t_type_q from_q to_q min_amt max_amt remark_q category_q
          limitQ2 offsetQ2 today db).1 ∧
    ∃ s t : List TxRow,
      transaction_rows user (lower (t_type_q.getD "all")) (from_q.getD (month_first today))
          (to_q.getD today) min_amt max_amt (strip (remark_q.getD ""))
          (strip (category_q.getD "")) db
        = s ++ (transaction_history user t_type_q from_q to_q min_amt max_amt remark_q
            category_q limitQ offsetQ today db).2 ++ t := by
  refine ⟨rfl, rfl, rfl, ?_⟩
  exact exists_slice_decomp
    (transaction_rows user (lower (t_type_q.getD "all")) (from_q.getD (month_first today))
      (to_q.getD today) min_amt max_amt (strip (remark_q.getD ""))
      (strip (category_q.getD "")) db)
    (parse_pagination limitQ offsetQ).2.toNat
    (parse_pagination limitQ offsetQ).1.toNat

/-- Claim C3: under per-user scoping, for users `A ≠ B` no row owned by `B`
is ever returned by `A`'s list endpoints, no detail lookup by `A` can
produce it (the 404 branch is taken instead, so update and delete never
touch it), every create stores the caller as owner regardless of the
payload, and updates never alter the owner. -/
theorem claim_C3 (A B pk : Nat) (db : Database)
    (from_d to_d : Option String) (min_amt max_amt : Option Int)
    (remark_q category_q type_q : Option String) (limitQ offsetQ : Option Int)
    (hAB : A ≠ B) :
    (∀ r : IncomeRow, r.user = some B →
      r ∉ (income_list_get A from_d to_d min_amt max_amt remark_q limitQ offsetQ db).2) ∧
    (∀ e : ExpenseRow, e.user = some B →
      e ∉ (expense_list_get A from_d to_d min_amt max_amt remark_q category_q type_q
        limitQ offsetQ db).2) ∧
    (∀ b : BudgetRow, b.user = some B →
      b ∉ (budget_list_get A from_d to_d limitQ offsetQ db).2) ∧
    (∀ r : IncomeRow, r.user = some B → income_detail_lookup A pk db ≠ some r) ∧
    (∀ e : ExpenseRow, e.user = some B → expense_detail_lookup A pk db ≠ some e) ∧
    (∀ next_id amount date source remark,
      (income_create A next_id amount date source remark).user = some A) ∧
    (∀ next_id date amount remark ty cat,
      (expense_create A next_id date amount remark ty cat).user = some A) ∧
    (∀ next_id cat sub amount date,
      (budget_create A next_id cat sub amount date).user = some A) ∧
    (∀ (obj : IncomeRow) amount date source remark,
      (income_update obj amount date source remark).user = obj.user) ∧
    (∀ (obj : ExpenseRow) date amount remark ty cat,
      (expense_update obj date amount remark ty cat).user = obj.user) := by
  have huser : ∀ u : Option Nat, u = some B → (u == some A) = true → False := by
    intro u hB hu
    rw [hB] at hu
    exact hAB (Option.some.inj (beq_iff_eq.mp hu)).symm
  refine ⟨?_, ?_, ?_, ?_, ?_,
    fun _ _ _ _ _ => rfl, fun _ _ _ _ _ _ => rfl, fun _ _ _ _ _ => rfl,
    fun _ _ _ _ _ => rfl, fun _ _ _ _ _ _ => rfl⟩
  · intro r hB hmem
    simp only [income_list_get] at hmem
    have h2 := (List.mem_filter.mp (mem_order_by.mp (mem_page hmem))).2
    simp only [income_list_pred, Bool.and_eq_true] at h2
    exact huser r.user hB h2.1.1.1.1.1
  · intro e hB hmem
    simp only [expense_list_get] at hmem
    have h2 := (List.mem_filter.mp (mem_order_by.mp (mem_page hmem))).2
    simp only [expense_list_pred, Bool.and_eq_true] at h2
    exact huser e.user hB h2.1.1.1.1.1.1.1
  · intro b hB hmem
    simp only [budget_list_get] at hmem
    have h2 := (List.mem_filter.mp (mem_order_by.mp (mem_page hmem))).2
    simp only [Bool.and_eq_true] at h2
    exact huser b.user hB h2.1.1
  · intro r hB h
    simp only [income_detail_lookup] at h
    have h2 := (List.mem_filter.mp (List.mem_of_find?_eq_some h)).2
    exact huser r.user hB h2
  · intro e hB h
    simp only [expense_detail_lookup] at h
    have h2 := (List.mem_filter.mp (List.mem_of_find?_eq_some h)).2
    exact huser e.user hB h2

/-- Claim C3 witness: a concrete row owned by user 2 is invisible to user 1
on both the detail lookup and the income list. -/
theorem claim_C3_witness :
    income_detail_lookup 1 1 db_C3 ≠ some inc_C3 ∧
    inc_C3 ∉ (income_list_get 1 none none none none none none none db_C3).2 := by
  have h := claim_C3 1 2 1 db_C3 none none none none none none none none none
    (by decide)
  exact ⟨h.2.2.2.1 inc_C3 rfl, h.1 inc_C3 rfl⟩

/-- Claim C8 counterexample: `"Saving"` is a variant label of the slug
`savings`, the expense list filtered by that slug matches the row stored
with it, but the unified feed filtered by the same slug returns nothing —
so not every slug-filtering read tolerates the variant spellings. -/
theorem claim_C8_cex :
    ("Saving" ∈ labels_for_slug "savings") ∧
    transaction_history 1 (some "savings") (some "2024-06-01") (some "2024-06-30")
        none none none none none none "2024-06-30" db_C8 = (0, []) ∧
    ((expense_list_get 1 none none none none none none (some "savings") none none
        db_C8).2.map (fun e => e.id)) = [1] := by
  decide

/-- Claim C8 (amended): reads that resolve a slug through `SLUG_TO_TYPES`
(the expense list type filter and the present-slugs computation) match
every legacy/variant stored spelling of a label; the unified transaction
feed does not — it matches only the canonical label case-insensitively
(plus null/empty for `expense`), so variant spellings such as `Saving`,
`EMI`, `Loan`, `Loans`, `Loans & Advance` and `Expenses` are not matched by
the feed. -/
theorem claim_C8 :
    (∀ (user : Nat) (slug t : String) (e : ExpenseRow),
      e.user = some user → e.type = some t → t ∈ labels_for_slug slug →
      expense_list_pred user none none none none "" "" slug e = true) ∧
    (∀ (user : Nat) (db : Database) (slug : String) (e : ExpenseRow),
      e ∈ db.expenses → e.user = some user → slug ∈ EXPENSE_SLUGS →
      strip (e.type.getD "") ∈ labels_for_slug slug →
      slug ∈ present_type_slugs user db) ∧
    feed_type_match "savings" (some "Saving") = false ∧
    feed_type_match "emis" (some "EMI") = false ∧
    feed_type_match "loans&advance" (some "Loan") = false ∧
    feed_type_match "loans&advance" (some "Loans") = false ∧
    feed_type_match "loans&advance" (some "Loans & Advance") = false ∧
    feed_type_match "expense" (some "Expenses") = false := by
  refine ⟨?_, ?_, by decide, by decide, by decide, by decide, by decide, by decide⟩
  · intro user slug t e hu ht hmem
    have hlook : (SLUG_TO_TYPES.lookup slug).isSome = true := by
      rcases hl : SLUG_TO_TYPES.lookup slug with _ | ls
      · rw [labels_for_slug, hl] at hmem
        exact absurd hmem (List.not_mem_nil t)
      · rw [Option.isSome]
    simp only [expense_list_pred, ht, Bool.and_eq_true]
    refine ⟨⟨⟨⟨⟨⟨⟨beq_iff_eq.mpr hu, trivial⟩, trivial⟩, trivial⟩, trivial⟩,
      rfl⟩, rfl⟩, ?_⟩
    rw [if_pos hlook]
    exact List.elem_iff.mpr hmem
  · intro user db slug e he hu hslug hl
    have hhit : slug ∈ present_slug_hits user db :=
      mem_present_slug_hits.mpr ⟨hslug, e, he, hu, hl⟩
    simp only [present_type_slugs]
    have hne : ¬ ((if db.incomes.any (fun r => r.user == some user) then
        (["income"] : List String) else []) ++ present_slug_hits user db).isEmpty
          = true := by
      intro hemp
      rw [List.isEmpty_iff] at hemp
      rw [(List.append_eq_nil.mp hemp).2] at hhit
      exact absurd hhit (List.not_mem_nil slug)
    rw [if_neg hne]
    exact List.mem_cons.mpr (Or.inr (List.mem_append.mpr (Or.inr hhit)))

/-- Claim C8 witness: the variant `"Saving"` matches the expense list's
`savings` filter and makes the `savings` slug present. -/
theorem claim_C8_witness :
    expense_list_pred 1 none none none none "" "" "savings" e_C8 = true ∧
    "savings" ∈ present_type_slugs 1 db_C8 := by
  exact ⟨claim_C8.1 1 "savings" "Saving" e_C8 rfl rfl (by decide),
    claim_C8.2.1 1 db_C8 "savings" e_C8 (by decide) rfl (by decide) (by decide)⟩

/-- Claim C9 counterexample: the stored type `"savings"` differs from the
known label `"Savings"` only in case, yet the `savings` slug is absent from
the user's present-slugs list and the expense list filtered by the slug
returns nothing — the Slug Mapper's comparisons are not case-insensitive. -/
theorem claim_C9_cex :
    (db_C9.expenses.map (fun e => e.type)) = [some "savings", some "Expense"] ∧
    present_type_slugs 1 db_C9 = ["all", "expense"] ∧
    ¬ ("savings" ∈ present_type_slugs 1 db_C9) ∧
    (expense_list_get 1 none none none none none none (some "savings") none none
        db_C9).2 = [] := by
  decide

/-- Claim C9 (amended): the Slug Mapper's label comparisons are exact,
case-sensitive string comparisons: apart from the empty-data fallback, a
slug appears in the present-slugs list exactly when some stored (trimmed)
`Expense.type` of the user equals one of the slug's labels verbatim, and
the expense list's slug filter only ever selects rows whose type is
verbatim one of the slug's labels; only the unified feed's per-slug type
filter is case-insensitive (against the canonical label). -/
theorem claim_C9 :
    (∀ (user : Nat) (db : Database) (slug : String), slug ∈ EXPENSE_SLUGS →
      present_type_slugs user db = "all" :: ALL_SLUGS ∨
        (slug ∈ present_type_slugs user db ↔
          ∃ e ∈ db.expenses, e.user = some user ∧
            strip (e.type.getD "") ∈ labels_for_slug slug)) ∧
    (∀ (user : Nat) (from_d to_d : Option String) (min_amt max_amt : Option Int)
        (remark category_q slug : String) (e : ExpenseRow),
      slug ∈ EXPENSE_SLUGS →
      expense_list_pred user from_d to_d min_amt max_amt remark category_q slug e
        = true →
      ∃ t, e.type = some t ∧ t ∈ labels_for_slug slug) ∧
    feed_type_match "savings" (some "sAvInGs") = true := by
  refine ⟨?_, ?_, by decide⟩
  · intro user db slug hslug
    by_cases hemp : ((if db.incomes.any (fun r => r.user == some user) then
        (["income"] : List String) else []) ++ present_slug_hits user db).isEmpty
          = true
    · left
      simp only [present_type_slugs]
      rw [if_pos hemp]
    · right
      have hne := (show ∀ s ∈ EXPENSE_SLUGS, s ≠ "all" ∧ s ≠ "income" by decide)
        slug hslug
      constructor
      · intro hmem
        simp only [present_type_slugs] at hmem
        rw [if_neg hemp] at hmem
        rcases List.mem_cons.mp hmem with h | h
        · exact absurd h hne.1
        · rcases List.mem_append.mp h with h | h
          · cases hi : db.incomes.any (fun r => r.user == some user) with
            | false => rw [if_neg (by simp [hi])] at h
                       exact absurd h (List.not_mem_nil slug)
            | true => rw [if_pos (by simp [hi])] at h
                      exact absurd (List.mem_singleton.mp h) hne.2
          · exact (mem_present_slug_hits.mp h).2
      · intro ⟨e, he, hu, hl⟩
        have hhit : slug ∈ present_slug_hits user db :=
          mem_present_slug_hits.mpr ⟨hslug, e, he, hu, hl⟩
        simp only [present_type_slugs]
        rw [if_neg hemp]
        exact List.mem_cons.mpr (Or.inr (List.mem_append.mpr (Or.inr hhit)))
  · intro user from_d to_d min_amt max_amt remark category_q slug e hslug hp
    have hkey : (SLUG_TO_TYPES.lookup slug).isSome = true :=
      (show ∀ s ∈ EXPENSE_SLUGS, (SLUG_TO_TYPES.lookup s).isSome = true by decide)
        slug hslug
    simp only [expense_list_pred, Bool.and_eq_true] at hp
    have hlast := hp.2
    rw [if_pos hkey] at hlast
    rcases het : e.type with _ | t
    · rw [het] at hlast
      simp at hlast
    · rw [het] at hlast
      exact ⟨t, rfl, List.elem_iff.mp hlast⟩

/-- Claim C9 witness: the expense list's `expense` filter selects a row
only because its stored type is verbatim one of the slug's labels. -/
theorem claim_C9_witness :
    ∃ t, e_C9_b.type = some t ∧ t ∈ labels_for_slug "expense" :=
  claim_C9.2.1 1 none none none none "" "" "expense" e_C9_b (by decide) (by decide)

/-- Claim C2: the insights endpoint returns one row per Budget row of the
caller, with `planned` the budget amount and `actual` the sum of the
caller's expense amounts whose category equals (case-insensitively) the
budget's trimmed subcategory when the budget category normalizes to
`expense`, the sum of the caller's income amounts whose remark or source
contains the subcategory (case-insensitively) when it normalizes to
`saving`/`savings`, and 0 otherwise — restricted to the current calendar
month exactly when `scope = "month"` — and `difference = actual - planned`. -/
theorem claim_C2 (user : Nat) (scope today : String) (db : Database)
    (b : BudgetRow) (hb : b ∈ db.budgets) (hu : b.user = some user) :
    (let exp_scope : List ExpenseRow :=
       if scope = "month" then
         (db.expenses.filter (fun e => e.user == some user)).filter
           (fun e => same_month e.date today)
       else db.expenses.filter (fun e => e.user == some user)
     let inc_scope : List IncomeRow :=
       if scope = "month" then
         (db.incomes.filter (fun r => r.user == some user)).filter
           (fun r => same_month r.date today)
       else db.incomes.filter (fun r => r.user == some user)
     let actual : Int :=
       if lower (strip b.category) = "expense" then
         ((exp_scope.filter (fun e => iexact e.category (strip b.subcategory))).map
           (fun e => e.amount)).sum
       else if lower (strip b.category) = "saving"
           ∨ lower (strip b.category) = "savings" then
         ((inc_scope.filter (fun r =>
             icontains r.remark (strip b.subcategory)
               || icontains r.source (strip b.subcategory))).map
           (fun r => r.amount)).sum
       else 0
     ({ category := b.category, subcategory := b.subcategory, planned := b.amount,
        actual := actual, difference := actual - b.amount } : InsightRow)
       ∈ insights_summary user scope today db) ∧
    (insights_summary user scope today db).length
      = (db.budgets.filter (fun b2 => b2.user == some user)).length := by
  constructor
  · have hbf : b ∈ db.budgets.filter (fun b2 => b2.user == some user) :=
      List.mem_filter.mpr ⟨hb, beq_iff_eq.mpr hu⟩
    have hbo : b ∈ order_by_date_id_desc (fun x => x.date) (fun x => x.id)
        (db.budgets.filter (fun b2 => b2.user == some user)) := mem_order_by.mpr hbf
    exact List.mem_map.mpr ⟨b, hbo, rfl⟩
  · simp only [insights_summary, List.length_map]
    exact (stable_sort_perm _ _).length_eq

/-- Claim C2 witness: a budget of 50 for Expense/Food against a matching
expense of 40 yields actual 40 and difference -10. -/
theorem claim_C2_witness :
    ({ category := "Expense", subcategory := "Food", planned := 50, actual := 40,
       difference := -10 } : InsightRow)
      ∈ insights_summary 1 "all" "2024-06-30" db_C2 := by
  have h := (claim_C2 1 "all" "2024-06-30" db_C2 bud_C2 (by decide) rfl).1
  exact h

end Taxables
